/-
Verification of the BRiCk module-building traversal (src/ModuleBuilder.cpp)
and the local-declaration printer (src/PrintLocalDecl.cpp) against their
natural-language specification.

The C++ sources are shallowly embedded below: clang AST declaration nodes
become the inductive `Decl`, the external `Filter` component becomes a
function `Decl → What`, the `Module` output sink becomes a record of lists,
and the visitor methods of `BuildModule` become Lean functions threading an
explicit state `St` (visited set, module, collected specifications).
-/
import Mathlib

namespace Cpp2v

/-- The Filter verdict `Filter::What`.  The enumeration order (with
`DEFINITION` greatest) is fixed by the source's use of
`go(...) >= Filter::What::DEFINITION` to test for an accepted definition. -/
inductive What where
  | NOTHING
  | DECLARATION
  | DEFINITION
deriving DecidableEq, Repr

/-- Numeric value of the `Filter::What` enumerator, used for the `>=`
comparison in `BuildModule::VisitFunctionDecl`. -/
def What.toNat : What → Nat
  | What.NOTHING => 0
  | What.DECLARATION => 1
  | What.DEFINITION => 2

/-- Modelled from the spec: `Module::Flags` (declared in ModuleBuilder.hpp,
which is not under src/) is an immutable record of two booleans
`in_template` and `in_specialization`, propagated top-down through the
traversal; `set_template` and `set_specialization` derive a new value. -/
structure Flags where
  in_template : Bool
  in_specialization : Bool
deriving DecidableEq, Repr

/-- Modelled from the spec: deriving a flags value with `in_template` set. -/
def Flags.set_template (f : Flags) : Flags :=
  { f with in_template := true }

/-- Modelled from the spec: deriving a flags value with `in_specialization`
set. -/
def Flags.set_specialization (f : Flags) : Flags :=
  { f with in_specialization := true }

/-- The empty flags value `{}` passed to the translation-unit root. -/
def Flags.empty : Flags :=
  { in_template := false, in_specialization := false }

/-- The kind of a clang `FunctionDecl`: a plain (non-member) function, or a
`CXXMethodDecl` / `CXXConstructorDecl` / `CXXDestructorDecl`. -/
inductive FnKind where
  | plain
  | method
  | ctor
  | dtor
deriving DecidableEq, Repr

/-- Shallow embedding of the clang declaration nodes dispatched on by
`BuildModule`.  `id` models `Decl::getID()` (a stable unique identity).
Cross links that the source only compares for pointer equality or nullness
(`getDefinition`, `getPreviousDecl`) are represented by the optional id of
the target node; children that the source recurses into (`decls()`,
`specializations()`, `getTemplatedDecl()`, `getFriendDecl()`) are sub-terms. -/
inductive Decl where
  | translationUnit (id : Int) (decls : List Decl)
  | namespaceD (id : Int) (decls : List Decl)
  | linkageSpec (id : Int) (decls : List Decl)
  | typedefName (id : Int)
  | tag (id : Int) (defn : Option Int) (prev : Option Int)
  | cxxRecord (id : Int) (implicit : Bool) (isSpecialization : Bool)
      (defn : Option Int) (prev : Option Int) (decls : List Decl)
  | enumD (id : Int) (canonical : Bool) (enumerators : List Int)
  | enumConstant (id : Int)
  | function (id : Int) (kind : FnKind) (deleted : Bool) (dependent : Bool)
      (defn : Option Int) (prev : Option Int) (hasComment : Bool)
      (decls : List Decl)
  | var (id : Int) (templated : Bool) (staticLocal : Bool) (defn : Option Int)
  | fieldD (id : Int)
  | indirectField (id : Int)
  | usingD (id : Int)
  | usingDirective (id : Int)
  | usingShadow (id : Int)
  | accessSpec (id : Int)
  | emptyD (id : Int)
  | staticAssert (id : Int)
  | builtinTemplate (id : Int)
  | classTemplate (id : Int) (templated : Decl) (specializations : List Decl)
  | functionTemplate (id : Int) (specializations : List Decl)
  | varTemplate (id : Int) (specializations : List Decl)
  | typeAliasTemplate (id : Int)
  | friendD (id : Int) (target : Option Decl)
  | typeDeclOther (id : Int)
  | otherDecl (id : Int)

/-- `Decl::getID()`. -/
def Decl.getID : Decl → Int
  | Decl.translationUnit id _ => id
  | Decl.namespaceD id _ => id
  | Decl.linkageSpec id _ => id
  | Decl.typedefName id => id
  | Decl.tag id _ _ => id
  | Decl.cxxRecord id _ _ _ _ _ => id
  | Decl.enumD id _ _ => id
  | Decl.enumConstant id => id
  | Decl.function id _ _ _ _ _ _ _ => id
  | Decl.var id _ _ _ => id
  | Decl.fieldD id => id
  | Decl.indirectField id => id
  | Decl.usingD id => id
  | Decl.usingDirective id => id
  | Decl.usingShadow id => id
  | Decl.accessSpec id => id
  | Decl.emptyD id => id
  | Decl.staticAssert id => id
  | Decl.builtinTemplate id => id
  | Decl.classTemplate id _ _ => id
  | Decl.functionTemplate id _ => id
  | Decl.varTemplate id _ => id
  | Decl.typeAliasTemplate id => id
  | Decl.friendD id _ => id
  | Decl.typeDeclOther id => id
  | Decl.otherDecl id => id

/-- `getDefinition()` as the id of the canonical defining occurrence
(`none` models a null pointer); defined for the kinds whose visitors
consult it. -/
def Decl.getDefinition : Decl → Option Int
  | Decl.tag _ defn _ => defn
  | Decl.cxxRecord _ _ _ defn _ _ => defn
  | Decl.function _ _ _ _ defn _ _ _ => defn
  | Decl.var _ _ _ defn => defn
  | _ => none

/-- `getPreviousDecl()` as the id of the previous redeclaration (`none`
models a null pointer). -/
def Decl.getPreviousDecl : Decl → Option Int
  | Decl.tag _ _ prev => prev
  | Decl.cxxRecord _ _ _ _ prev _ => prev
  | Decl.function _ _ _ _ _ prev _ _ => prev
  | _ => none

/-- `FunctionDecl::isDeleted()`. -/
def Decl.isDeleted : Decl → Bool
  | Decl.function _ _ deleted _ _ _ _ _ => deleted
  | _ => false

/-- `Decl::isDependentContext()` (consulted by `VisitFunctionDecl`). -/
def Decl.isDependentContext : Decl → Bool
  | Decl.function _ _ _ dependent _ _ _ _ => dependent
  | _ => false

/-- `Decl::isTemplated()` (consulted by `VisitVarDecl`). -/
def Decl.isTemplated : Decl → Bool
  | Decl.var _ templated _ _ => templated
  | _ => false

/-- Whether `getRawCommentForDeclNoCache` returns an attached raw comment. -/
def Decl.hasRawComment : Decl → Bool
  | Decl.function _ _ _ _ _ _ hasComment _ => hasComment
  | _ => false

/-- `DeclContext::decls()`: the child declarations iterated by the
container visitors and by the static-local scan of `VisitFunctionDecl`. -/
def Decl.declsOf : Decl → List Decl
  | Decl.translationUnit _ ds => ds
  | Decl.namespaceD _ ds => ds
  | Decl.linkageSpec _ ds => ds
  | Decl.cxxRecord _ _ _ _ _ ds => ds
  | Decl.function _ _ _ _ _ _ _ ds => ds
  | _ => []

/-- `EnumDecl::enumerators()`: a typed range of `EnumConstantDecl` nodes,
modelled by their ids. -/
def Decl.enumeratorsOf : Decl → List Int
  | Decl.enumD _ _ es => es
  | _ => []

/-- `Decl::isCanonicalDecl()` (consulted by `VisitEnumDecl`). -/
def Decl.isCanonicalDecl : Decl → Bool
  | Decl.enumD _ canonical _ => canonical
  | _ => true

/-- `dyn_cast<VarDecl>` succeeds. -/
def Decl.isVarDecl : Decl → Bool
  | Decl.var _ _ _ _ => true
  | _ => false

/-- `VarDecl::isStaticLocal()`. -/
def Decl.isStaticLocal : Decl → Bool
  | Decl.var _ _ staticLocal _ => staticLocal
  | _ => false

/-- The output aggregate `::Module`: four ordered declaration lists plus the
static-assertion list (field names follow ModuleBuilder.cpp lines 297-322). -/
structure Module where
  definitions_ : List Decl
  declarations_ : List Decl
  template_definitions_ : List Decl
  template_declarations_ : List Decl
  asserts_ : List Decl

/-- The empty module. -/
def Module.empty : Module :=
  { definitions_ := [], declarations_ := [], template_definitions_ := [],
    template_declarations_ := [], asserts_ := [] }

/-- The file-static `add_decl` bucket rule (ModuleBuilder.cpp lines 303-314):
route an insertion to the main or the template partition list by the flags. -/
def add_decl (decls : List Decl) (tdecls : List Decl) (d : Decl)
    (flags : Flags) : List Decl × List Decl :=
  if flags.in_template then
    (decls, tdecls ++ [d])
  else
    (decls ++ [d], if flags.in_specialization then tdecls ++ [d] else tdecls)

/-- `Module::add_definition`. -/
def Module.add_definition (m : Module) (d : Decl) (flags : Flags) : Module :=
  let p := add_decl m.definitions_ m.template_definitions_ d flags
  { m with definitions_ := p.1, template_definitions_ := p.2 }

/-- `Module::add_declaration`. -/
def Module.add_declaration (m : Module) (d : Decl) (flags : Flags) : Module :=
  let p := add_decl m.declarations_ m.template_declarations_ d flags
  { m with declarations_ := p.1, template_declarations_ := p.2 }

/-- `Module::add_assert`. -/
def Module.add_assert (m : Module) (d : Decl) : Module :=
  { m with asserts_ := m.asserts_ ++ [d] }

/-- The classification core `BuildModule::go` (ModuleBuilder.cpp lines
42-60).  `filter` is the external `Filter::shouldInclude`; the C++ default
argument `definition = true` is passed explicitly at every call site below. -/
def go (filter : Decl → What) (m : Module) (decl : Decl) (flags : Flags)
    (definition : Bool) : Module × What :=
  match filter decl with
  | What.DEFINITION =>
      if definition then
        (m.add_definition decl flags, What.DEFINITION)
      else
        (m.add_declaration decl flags, What.DECLARATION)
  | What.DECLARATION => (m.add_declaration decl flags, What.DECLARATION)
  | What.NOTHING => (m, What.NOTHING)

/-- The mutable state of one `BuildModule` traversal: the visited set, the
module being populated, and the `SpecCollector` contents (modelled as the
list of function ids whose specification was collected, in order). -/
structure St where
  visited_ : List Int
  module_ : Module
  specs_ : List Int

/-- The initial state of `build_module`. -/
def St.empty : St :=
  { visited_ := [], module_ := Module.empty, specs_ := [] }

/-- `BuildModule::VisitTagDecl` (ModuleBuilder.cpp lines 126-133). -/
def VisitTagDecl (filter : Decl → What) (st : St) (decl : Decl)
    (flags : Flags) : St :=
  if decl.getDefinition = some decl.getID then
    { st with module_ := (go filter st.module_ decl flags true).1 }
  else if decl.getDefinition = none ∧ decl.getPreviousDecl = none then
    { st with module_ := (go filter st.module_ decl flags false).1 }
  else
    st

/-- The loop body of the static-local scan in `BuildModule::VisitFunctionDecl`
(ModuleBuilder.cpp lines 173-179): `dyn_cast<VarDecl>` plus
`isStaticLocal()`, then `go(d, flags)` with the default `definition = true`. -/
def staticLocalStep (filter : Decl → What) (flags : Flags) (s : St)
    (i : Decl) : St :=
  if i.isVarDecl && i.isStaticLocal then
    { s with module_ := (go filter s.module_ i flags true).1 }
  else
    s

/-- `BuildModule::VisitFunctionDecl` (ModuleBuilder.cpp lines 159-184).
`tv` is the `templates_` configuration flag. -/
def VisitFunctionDecl (tv : Bool) (filter : Decl → What) (st : St)
    (decl : Decl) (flags : Flags) : St :=
  if !tv && decl.isDependentContext then
    st
  else if decl.getDefinition = some decl.getID then
    let st :=
      if decl.hasRawComment then
        { st with specs_ := st.specs_ ++ [decl.getID] }
      else
        st
    let p := go filter st.module_ decl flags true
    let st := { st with module_ := p.1 }
    if What.toNat What.DEFINITION ≤ What.toNat p.2 then
      List.foldl (staticLocalStep filter flags) st decl.declsOf
    else
      st
  else if decl.getDefinition = none ∧ decl.getPreviousDecl = none then
    { st with module_ := (go filter st.module_ decl flags false).1 }
  else
    st

/-- `BuildModule::VisitCXXMethodDecl` (ModuleBuilder.cpp lines 152-157): a
deleted method is skipped; otherwise the base-class dispatch forwards to
`VisitFunctionDecl`. -/
def VisitCXXMethodDecl (tv : Bool) (filter : Decl → What) (st : St)
    (decl : Decl) (flags : Flags) : St :=
  if decl.isDeleted then
    st
  else
    VisitFunctionDecl tv filter st decl flags

/-- `BuildModule::VisitCXXConstructorDecl` (ModuleBuilder.cpp lines 240-245):
a deleted constructor is skipped; the base-class dispatch then reaches
`VisitCXXMethodDecl`. -/
def VisitCXXConstructorDecl (tv : Bool) (filter : Decl → What) (st : St)
    (decl : Decl) (flags : Flags) : St :=
  if decl.isDeleted then
    st
  else
    VisitCXXMethodDecl tv filter st decl flags

/-- `BuildModule::VisitCXXDestructorDecl` (ModuleBuilder.cpp lines 247-252). -/
def VisitCXXDestructorDecl (tv : Bool) (filter : Decl → What) (st : St)
    (decl : Decl) (flags : Flags) : St :=
  if decl.isDeleted then
    st
  else
    VisitCXXMethodDecl tv filter st decl flags

/-- `BuildModule::VisitVarDecl` (ModuleBuilder.cpp lines 190-196), exactly as
written in the source: the guard is `!templates_ && !decl->isTemplated()`. -/
def VisitVarDecl (tv : Bool) (filter : Decl → What) (st : St) (decl : Decl)
    (flags : Flags) : St :=
  if !tv && !decl.isTemplated then
    st
  else
    { st with module_ := (go filter st.module_ decl flags true).1 }

/-- `BuildModule::VisitEnumDecl` (ModuleBuilder.cpp lines 222-230). -/
def VisitEnumDecl (filter : Decl → What) (st : St) (decl : Decl)
    (flags : Flags) : St :=
  if !decl.isCanonicalDecl then
    st
  else
    let st := { st with module_ := (go filter st.module_ decl flags true).1 }
    List.foldl
      (fun s i =>
        { s with
          module_ := (go filter s.module_ (Decl.enumConstant i) flags true).1 })
      st decl.enumeratorsOf

/-- `BuildModule::VisitTypedefNameDecl` (ModuleBuilder.cpp lines 122-124). -/
def VisitTypedefNameDecl (filter : Decl → What) (st : St) (decl : Decl)
    (flags : Flags) : St :=
  { st with module_ := (go filter st.module_ decl flags true).1 }

/-- `BuildModule::VisitEnumConstantDecl` (ModuleBuilder.cpp lines 186-188). -/
def VisitEnumConstantDecl (filter : Decl → What) (st : St) (decl : Decl)
    (flags : Flags) : St :=
  { st with module_ := (go filter st.module_ decl flags true).1 }

/-- `BuildModule::VisitStaticAssertDecl` (ModuleBuilder.cpp lines 93-95). -/
def VisitStaticAssertDecl (st : St) (decl : Decl) : St :=
  { st with module_ := st.module_.add_assert decl }

mutual

/-- `BuildModule::Visit` (ModuleBuilder.cpp lines 69-74): the visited-set
cycle guard — if the identity was already dispatched, return immediately;
otherwise record it and dispatch by declaration kind. -/
def Visit (tv : Bool) (filter : Decl → What) (st : St) (d : Decl)
    (flags : Flags) : St :=
  if d.getID ∈ st.visited_ then
    st
  else
    visitKind tv filter { st with visited_ := d.getID :: st.visited_ } d flags

/-- The base-class dispatch `ConstDeclVisitorArgs::Visit`: double dispatch
over the closed set of declaration kinds, reaching the most specific
`VisitXxx` member of `BuildModule`.  Container and template kinds recurse;
the `assert(flags.none())` of the container visitors is an internal
invariant, not data flow, and is not modelled.  Kinds that `BuildModule`
ignores, the `VisitTypeDecl` diagnostic fallback and the `VisitDecl`
unsupported-kind fallback all drop the node. -/
def visitKind (tv : Bool) (filter : Decl → What) (st : St) (d : Decl)
    (flags : Flags) : St :=
  match d with
  | Decl.translationUnit _ ds => visitList tv filter st ds flags
  | Decl.namespaceD _ ds => visitList tv filter st ds flags
  | Decl.linkageSpec _ ds => visitList tv filter st ds flags
  | Decl.typedefName _ => VisitTypedefNameDecl filter st d flags
  | Decl.tag _ _ _ => VisitTagDecl filter st d flags
  | Decl.cxxRecord _ implicit isSpec _ _ ds =>
      -- BuildModule::VisitCXXRecordDecl (ModuleBuilder.cpp lines 135-150)
      if implicit then
        st
      else if !flags.in_specialization && isSpec then
        st
      else
        let st := visitList tv filter st ds flags
        VisitTagDecl filter st d flags
  | Decl.enumD _ _ _ => VisitEnumDecl filter st d flags
  | Decl.enumConstant _ => VisitEnumConstantDecl filter st d flags
  | Decl.function _ FnKind.plain _ _ _ _ _ _ =>
      VisitFunctionDecl tv filter st d flags
  | Decl.function _ FnKind.method _ _ _ _ _ _ =>
      VisitCXXMethodDecl tv filter st d flags
  | Decl.function _ FnKind.ctor _ _ _ _ _ _ =>
      VisitCXXConstructorDecl tv filter st d flags
  | Decl.function _ FnKind.dtor _ _ _ _ _ _ =>
      VisitCXXDestructorDecl tv filter st d flags
  | Decl.var _ _ _ _ => VisitVarDecl tv filter st d flags
  | Decl.fieldD _ => st
  | Decl.indirectField _ => st
  | Decl.usingD _ => st
  | Decl.usingDirective _ => st
  | Decl.usingShadow _ => st
  | Decl.accessSpec _ => st
  | Decl.emptyD _ => st
  | Decl.staticAssert _ => VisitStaticAssertDecl st d
  | Decl.builtinTemplate _ => st
  | Decl.classTemplate _ td specls =>
      -- BuildModule::VisitClassTemplateDecl (ModuleBuilder.cpp lines 264-271)
      let st := if tv then Visit tv filter st td flags.set_template else st
      visitList tv filter st specls flags.set_specialization
  | Decl.functionTemplate _ specls =>
      -- BuildModule::VisitFunctionTemplateDecl (lines 254-262)
      let st :=
        if tv then
          { st with module_ := (go filter st.module_ d flags.set_template true).1 }
        else
          st
      visitList tv filter st specls flags.set_specialization
  | Decl.varTemplate _ specls =>
      -- BuildModule::VisitVarTemplateDecl (lines 84-91)
      let st :=
        if tv then
          { st with module_ := (go filter st.module_ d flags.set_template true).1 }
        else
          st
      visitList tv filter st specls flags.set_specialization
  | Decl.typeAliasTemplate _ => st
  | Decl.friendD _ (some t) =>
      -- BuildModule::VisitFriendDecl (lines 273-277)
      Visit tv filter st t flags
  | Decl.friendD _ none => st
  | Decl.typeDeclOther _ => st
  | Decl.otherDecl _ => st

/-- The child loops `for (auto i : decl->decls()) this->Visit(i, flags)` of
the container visitors and the specialization loops of the template
visitors. -/
def visitList (tv : Bool) (filter : Decl → What) (st : St) (ds : List Decl)
    (flags : Flags) : St :=
  match ds with
  | [] => st
  | d :: ds => visitList tv filter (Visit tv filter st d flags) ds flags

end

/-- `build_module` (ModuleBuilder.cpp lines 288-295): construct the builder
and call `VisitTranslationUnitDecl` on the root (bypassing the `Visit`
guard), with empty flags.  `VisitTranslationUnitDecl` (lines 101-108)
visits every child of the translation unit. -/
def build_module (tv : Bool) (filter : Decl → What) (tu : Decl) : St :=
  visitList tv filter St.empty tu.declsOf Flags.empty

/-
Embedding of the local-declaration printer (src/PrintLocalDecl.cpp).
The output sink is modelled as a token stream; `fmt::lparen`, `fmt::rparen`
and `fmt::nbsp` from the Formatter are distinguished tokens, and every
`operator<<` on a string appends a `str` token.
-/

/-- One token of the printed output stream. -/
inductive PTok where
  | lparen
  | rparen
  | nbsp
  | str (s : String)
  | errmark (s : String)
deriving DecidableEq, Repr

/-- A qualified type, opaque to the local-declaration printer (it is passed
whole to the external `ClangPrinter::printQualType`). -/
inductive QualType where
  | Tint
  | Tnamed (tag : Int)
deriving DecidableEq, Repr

/-- An initializer expression, opaque to the local-declaration printer (it
is passed whole to the external `ClangPrinter::printExpr`). -/
inductive PExpr where
  | intLit (value : Int)
  | otherExpr (tag : Int)
deriving DecidableEq, Repr

/-- A declaration as seen by `PrintLocalDecl`: a `VarDecl` carrying its
name (`getNameAsString`), type (`getType`) and optional initializer
(`hasInit` / `getInit`), or a declaration of any other kind, which falls
through to `PrintLocalDecl::VisitDecl`. -/
inductive LDecl where
  | varD (name : String) (type : QualType) (init : Option PExpr)
  | otherD (kindTag : Int)
deriving DecidableEq, Repr

/-- Modelled from the spec: `CoqPrinter::ctor` (CoqPrinter.hpp is not under
src/) opens a constructor application — every printed unit of the output
grammar is a fully parenthesized, self-delimiting term (tag + fields) — so
`ctor(name, nl)` emits an opening parenthesis, the constructor name and a
separator; the boolean argument only controls line breaking and has no
token-level effect here. -/
def CoqPrinter.ctor (name : String) (_nl : Bool) : List PTok :=
  [PTok.lparen, PTok.str name, PTok.nbsp]

/-- Modelled from the spec: `CoqPrinter::error` (CoqPrinter.hpp is not under
src/) writes an explicit inline error marker into the output stream — the
malformed spot stays visible in the output instead of aborting the print
pass — plus a diagnostic on the side channel (not modelled). -/
def CoqPrinter.error (msg : String) : List PTok :=
  [PTok.errmark msg]

/-- `PrintLocalDecl::VisitVarDecl` (PrintLocalDecl.cpp lines 15-29).
`printQualType` and `printExpr` stand for the external
`ClangPrinter::printQualType` / `ClangPrinter::printExpr`, abstracted as
arbitrary functions into the token stream. -/
def PrintLocalDecl.VisitVarDecl (printQualType : QualType → List PTok)
    (printExpr : PExpr → List PTok) (name : String) (type : QualType)
    (init : Option PExpr) : List PTok :=
  [PTok.lparen, PTok.str (r#"""#), PTok.str name, PTok.str (r#"","#),
      PTok.nbsp]
    ++ printQualType type
    ++ [PTok.str (r","), PTok.nbsp]
    ++ (match init with
        | some e =>
            CoqPrinter.ctor (r"Some") false ++ printExpr e ++ [PTok.rparen]
        | none => [PTok.str (r"None")])
    ++ [PTok.rparen]

/-- `PrintLocalDecl::VisitDecl` (PrintLocalDecl.cpp lines 31-34): the
fallback for a declaration kind that cannot legally appear as a local
declaration. -/
def PrintLocalDecl.VisitDecl : List PTok :=
  CoqPrinter.error (r"unexpected local declaration")

/-- `ClangPrinter::printLocalDecl` (PrintLocalDecl.cpp lines 39-41):
dispatch the `PrintLocalDecl` visitor on the declaration. -/
def ClangPrinter.printLocalDecl (printQualType : QualType → List PTok)
    (printExpr : PExpr → List PTok) (d : LDecl) : List PTok :=
  match d with
  | LDecl.varD name type init =>
      PrintLocalDecl.VisitVarDecl printQualType printExpr name type init
  | LDecl.otherD _ => PrintLocalDecl.VisitDecl

/-
Predicates used to state the traversal invariants.
-/

/-- The declaration is a record-like tag handled by `VisitTagDecl` (a plain
`RecordDecl` falling through, or a `CXXRecordDecl`). -/
def isRecordTag : Decl → Bool
  | Decl.tag _ _ _ => true
  | Decl.cxxRecord _ _ _ _ _ _ => true
  | _ => false

/-- The declaration is a `FunctionDecl` (of any of the four kinds). -/
def isFunctionDecl : Decl → Bool
  | Decl.function _ _ _ _ _ _ _ _ => true
  | _ => false

/-- The declaration is a member function: a method, constructor or
destructor. -/
def isMemberFn : Decl → Bool
  | Decl.function _ FnKind.plain _ _ _ _ _ _ => false
  | Decl.function _ _ _ _ _ _ _ _ => true
  | _ => false

/-- What the traversal guarantees about any element newly inserted into a
definition list: a record tag or function is inserted as a definition only
at its canonical defining occurrence, and a member function only when not
deleted. -/
def NewDef (x : Decl) : Prop :=
  ((isRecordTag x || isFunctionDecl x) = true →
     x.getDefinition = some x.getID)
  ∧ (isMemberFn x = true → x.isDeleted = false)

/-- What the traversal guarantees about any element newly inserted into a
declaration list: a record tag or function is inserted as a declaration
either at its defining occurrence (verdict demanded Declaration) or at the
unique first-seen occurrence with no definition and no previous
declaration; a member function only when not deleted. -/
def NewDecl (x : Decl) : Prop :=
  ((isRecordTag x || isFunctionDecl x) = true →
     x.getDefinition = some x.getID ∨
       (x.getDefinition = none ∧ x.getPreviousDecl = none))
  ∧ (isMemberFn x = true → x.isDeleted = false)

/-- One traversal step relates the states before and after: the visited set
only grows, and every element of an output list either was already there
or satisfies the corresponding insertion guarantee. -/
structure Step (s t : St) : Prop where
  vis : ∀ x, x ∈ s.visited_ → x ∈ t.visited_
  defs : ∀ x, x ∈ t.module_.definitions_ →
    x ∈ s.module_.definitions_ ∨ NewDef x
  tdefs : ∀ x, x ∈ t.module_.template_definitions_ →
    x ∈ s.module_.template_definitions_ ∨ NewDef x
  decls : ∀ x, x ∈ t.module_.declarations_ →
    x ∈ s.module_.declarations_ ∨ NewDecl x
  tdecls : ∀ x, x ∈ t.module_.template_declarations_ →
    x ∈ s.module_.template_declarations_ ∨ NewDecl x

end Cpp2v

namespace Cpp2v

/-
Helper lemmas.
-/

theorem Step.rfl {s : St} : Step s s :=
  ⟨fun _ h => h, fun _ h => Or.inl h, fun _ h => Or.inl h,
   fun _ h => Or.inl h, fun _ h => Or.inl h⟩

theorem Step.trans {s t u : St} (h1 : Step s t) (h2 : Step t u) : Step s u := by
  refine ⟨fun x hx => h2.vis x (h1.vis x hx), ?_, ?_, ?_, ?_⟩
  · intro x hx
    rcases h2.defs x hx with h | h
    · exact h1.defs x h
    · exact Or.inr h
  · intro x hx
    rcases h2.tdefs x hx with h | h
    · exact h1.tdefs x h
    · exact Or.inr h
  · intro x hx
    rcases h2.decls x hx with h | h
    · exact h1.decls x h
    · exact Or.inr h
  · intro x hx
    rcases h2.tdecls x hx with h | h
    · exact h1.tdecls x h
    · exact Or.inr h

/-- A state change that leaves the visited set and the module untouched
(for instance a `SpecCollector` insertion) is a step. -/
theorem Step.of_fields {s t : St} (hv : t.visited_ = s.visited_)
    (hm : t.module_ = s.module_) : Step s t := by
  refine ⟨?_, ?_, ?_, ?_, ?_⟩ <;> intro x hx <;>
    first
      | (rw [hv]; exact hx)
      | (rw [hm] at hx; exact Or.inl hx)

/-- Provenance of the module lists across one `go` call: each list keeps
its old elements, a definition list gains at most `decl` and only when
`definition = true`, a declaration list gains at most `decl`. -/
theorem go_provenance (filter : Decl → What) (m : Module) (decl : Decl)
    (flags : Flags) (b : Bool) :
    (∀ x, x ∈ (go filter m decl flags b).1.definitions_ →
       x ∈ m.definitions_ ∨ (x = decl ∧ b = true))
  ∧ (∀ x, x ∈ (go filter m decl flags b).1.template_definitions_ →
       x ∈ m.template_definitions_ ∨ (x = decl ∧ b = true))
  ∧ (∀ x, x ∈ (go filter m decl flags b).1.declarations_ →
       x ∈ m.declarations_ ∨ x = decl)
  ∧ (∀ x, x ∈ (go filter m decl flags b).1.template_declarations_ →
       x ∈ m.template_declarations_ ∨ x = decl)
  ∧ (go filter m decl flags b).1.asserts_ = m.asserts_ := by
  unfold go Module.add_definition Module.add_declaration add_decl
  rcases hf : filter decl <;> rcases b <;> rcases flags with ⟨ht, hs⟩ <;>
    rcases ht <;> rcases hs <;>
    refine ⟨?_, ?_, ?_, ?_, ?_⟩ <;> simp_all [List.mem_append]

/-- The module lists only grow across one `go` call. -/
theorem go_mono (filter : Decl → What) (m : Module) (decl : Decl)
    (flags : Flags) (b : Bool) :
    (∀ x, x ∈ m.definitions_ → x ∈ (go filter m decl flags b).1.definitions_)
  ∧ (∀ x, x ∈ m.template_definitions_ →
       x ∈ (go filter m decl flags b).1.template_definitions_)
  ∧ (∀ x, x ∈ m.declarations_ →
       x ∈ (go filter m decl flags b).1.declarations_)
  ∧ (∀ x, x ∈ m.template_declarations_ →
       x ∈ (go filter m decl flags b).1.template_declarations_) := by
  unfold go Module.add_definition Module.add_declaration add_decl
  rcases hf : filter decl <;> rcases b <;> rcases flags with ⟨ht, hs⟩ <;>
    rcases ht <;> rcases hs <;>
    refine ⟨?_, ?_, ?_, ?_⟩ <;> simp_all [List.mem_append]

/-- `go` inserts the declaration itself into a definition list when called
at a defining occurrence with verdict `DEFINITION`. -/
theorem go_self_mem_def (filter : Decl → What) (m : Module) (s : Decl)
    (flags : Flags) (h : filter s = What.DEFINITION) :
    s ∈ (go filter m s flags true).1.definitions_ ∨
      s ∈ (go filter m s flags true).1.template_definitions_ := by
  unfold go Module.add_definition add_decl
  rcases flags with ⟨ht, hs⟩ <;> rcases ht <;> rcases hs <;>
    simp_all [List.mem_append]

/-- `go` inserts the declaration itself into a declaration list when the
verdict is `DECLARATION`. -/
theorem go_self_mem_decl (filter : Decl → What) (m : Module) (s : Decl)
    (flags : Flags) (b : Bool) (h : filter s = What.DECLARATION) :
    s ∈ (go filter m s flags b).1.declarations_ ∨
      s ∈ (go filter m s flags b).1.template_declarations_ := by
  unfold go Module.add_declaration add_decl
  rcases flags with ⟨ht, hs⟩ <;> rcases ht <;> rcases hs <;>
    simp_all [List.mem_append]

/-- A module update through `go` is a step, given the insertion guarantees
for the inserted declaration. -/
theorem Step.of_go {st : St} (filter : Decl → What) (decl : Decl)
    (flags : Flags) (b : Bool) (hd : b = true → NewDef decl)
    (hc : NewDecl decl) :
    Step st { st with module_ := (go filter st.module_ decl flags b).1 } := by
  obtain ⟨p1, p2, p3, p4, _⟩ := go_provenance filter st.module_ decl flags b
  refine ⟨fun x hx => hx, ?_, ?_, ?_, ?_⟩
  · intro x hx
    rcases p1 x hx with h | ⟨rfl, hb⟩
    · exact Or.inl h
    · exact Or.inr (hd hb)
  · intro x hx
    rcases p2 x hx with h | ⟨rfl, hb⟩
    · exact Or.inl h
    · exact Or.inr (hd hb)
  · intro x hx
    rcases p3 x hx with h | rfl
    · exact Or.inl h
    · exact Or.inr hc
  · intro x hx
    rcases p4 x hx with h | rfl
    · exact Or.inl h
    · exact Or.inr hc

/-- Folding a step-preserving loop body over a list is a step. -/
theorem Step.foldl {α : Type} (f : St → α → St)
    (h : ∀ s i, Step s (f s i)) :
    ∀ (ds : List α) (st : St), Step st (List.foldl f st ds) := by
  intro ds
  induction ds with
  | nil => exact fun st => Step.rfl
  | cons d ds ih =>
      intro st
      exact Step.trans (h st d) (ih (f st d))

/-- A declaration of a structurally inert kind (not a record tag, not a
function) satisfies both insertion guarantees vacuously. -/
theorem New_of_inert (x : Decl) (h1 : isRecordTag x = false)
    (h2 : isFunctionDecl x = false) (h3 : isMemberFn x = false) :
    NewDef x ∧ NewDecl x := by
  refine ⟨⟨?_, ?_⟩, ⟨?_, ?_⟩⟩ <;> simp [h1, h2, h3]

/-- A `VarDecl` satisfies both insertion guarantees vacuously. -/
theorem New_of_var (x : Decl) (h : x.isVarDecl = true) :
    NewDef x ∧ NewDecl x := by
  cases x <;> simp_all [Decl.isVarDecl] <;>
    exact New_of_inert _ (by simp [isRecordTag]) (by simp [isFunctionDecl])
      (by simp [isMemberFn])

/-- The static-local loop body of `VisitFunctionDecl` is a step. -/
theorem staticLocalStep_step (filter : Decl → What) (flags : Flags)
    (s : St) (i : Decl) : Step s (staticLocalStep filter flags s i) := by
  unfold staticLocalStep
  split
  · rename_i h
    obtain ⟨hd, hc⟩ := New_of_var i (by simpa using (Bool.and_elim_left h))
    exact Step.of_go filter i flags true (fun _ => hd) hc
  · exact Step.rfl

/-- `VisitTagDecl` is a step, for a declaration that is not a deleted
member function. -/
theorem VisitTagDecl_step (filter : Decl → What) (st : St) (d : Decl)
    (flags : Flags) (hm : isMemberFn d = true → d.isDeleted = false) :
    Step st (VisitTagDecl filter st d flags) := by
  unfold VisitTagDecl
  split
  · rename_i h
    exact Step.of_go filter d flags true (fun _ => ⟨fun _ => h, hm⟩)
      ⟨fun _ => Or.inl h, hm⟩
  · split
    · rename_i h
      exact Step.of_go filter d flags false (fun hb => absurd hb (by simp))
        ⟨fun _ => Or.inr h, hm⟩
    · exact Step.rfl

/-- `VisitFunctionDecl` is a step, for a declaration that is not a deleted
member function. -/
theorem VisitFunctionDecl_step (tv : Bool) (filter : Decl → What) (st : St)
    (d : Decl) (flags : Flags)
    (hm : isMemberFn d = true → d.isDeleted = false) :
    Step st (VisitFunctionDecl tv filter st d flags) := by
  unfold VisitFunctionDecl
  dsimp only
  split
  · exact Step.rfl
  · split
    · rename_i h
      have hspec :
          Step st (if d.hasRawComment then
            { st with specs_ := st.specs_ ++ [d.getID] } else st) := by
        split
        · exact Step.of_fields rfl rfl
        · exact Step.rfl
      refine Step.trans hspec ?_
      generalize (if d.hasRawComment then
        { st with specs_ := st.specs_ ++ [d.getID] } else st) = st1 at *
      have hgo : Step st1
          { st1 with module_ := (go filter st1.module_ d flags true).1 } :=
        Step.of_go filter d flags true (fun _ => ⟨fun _ => h, hm⟩)
          ⟨fun _ => Or.inl h, hm⟩
      refine Step.trans hgo ?_
      split
      · exact Step.foldl (staticLocalStep filter flags)
          (staticLocalStep_step filter flags) d.declsOf _
      · exact Step.rfl
    · split
      · rename_i h
        exact Step.of_go filter d flags false (fun hb => absurd hb (by simp))
          ⟨fun _ => Or.inr h, hm⟩
      · exact Step.rfl

/-- `VisitCXXMethodDecl` is a step: the deleted-member guard supplies the
non-deletedness needed by `VisitFunctionDecl_step`. -/
theorem VisitCXXMethodDecl_step (tv : Bool) (filter : Decl → What) (st : St)
    (d : Decl) (flags : Flags) :
    Step st (VisitCXXMethodDecl tv filter st d flags) := by
  unfold VisitCXXMethodDecl
  split
  · exact Step.rfl
  · rename_i h
    exact VisitFunctionDecl_step tv filter st d flags
      (fun _ => by simpa using h)

/-- `VisitCXXConstructorDecl` is a step. -/
theorem VisitCXXConstructorDecl_step (tv : Bool) (filter : Decl → What)
    (st : St) (d : Decl) (flags : Flags) :
    Step st (VisitCXXConstructorDecl tv filter st d flags) := by
  unfold VisitCXXConstructorDecl
  split
  · exact Step.rfl
  · exact VisitCXXMethodDecl_step tv filter st d flags

/-- `VisitCXXDestructorDecl` is a step. -/
theorem VisitCXXDestructorDecl_step (tv : Bool) (filter : Decl → What)
    (st : St) (d : Decl) (flags : Flags) :
    Step st (VisitCXXDestructorDecl tv filter st d flags) := by
  unfold VisitCXXDestructorDecl
  split
  · exact Step.rfl
  · exact VisitCXXMethodDecl_step tv filter st d flags

/-- `VisitVarDecl` is a step, for an actual `VarDecl`. -/
theorem VisitVarDecl_step (tv : Bool) (filter : Decl → What) (st : St)
    (d : Decl) (flags : Flags) (hv : d.isVarDecl = true) :
    Step st (VisitVarDecl tv filter st d flags) := by
  unfold VisitVarDecl
  split
  · exact Step.rfl
  · obtain ⟨hd, hc⟩ := New_of_var d hv
    exact Step.of_go filter d flags true (fun _ => hd) hc

/-- `VisitEnumDecl` is a step, for a declaration of inert kind (an
`EnumDecl`). -/
theorem VisitEnumDecl_step (filter : Decl → What) (st : St) (d : Decl)
    (flags : Flags) (h1 : isRecordTag d = false)
    (h2 : isFunctionDecl d = false) (h3 : isMemberFn d = false) :
    Step st (VisitEnumDecl filter st d flags) := by
  unfold VisitEnumDecl
  split
  · exact Step.rfl
  · obtain ⟨hd, hc⟩ := New_of_inert d h1 h2 h3
    refine Step.trans (Step.of_go filter d flags true (fun _ => hd) hc) ?_
    refine Step.foldl _ ?_ d.enumeratorsOf _
    intro s i
    obtain ⟨hd2, hc2⟩ := New_of_inert (Decl.enumConstant i)
      (by simp [isRecordTag]) (by simp [isFunctionDecl]) (by simp [isMemberFn])
    exact Step.of_go filter (Decl.enumConstant i) flags true (fun _ => hd2) hc2

/-- `VisitTypedefNameDecl` is a step, for a declaration of inert kind. -/
theorem VisitTypedefNameDecl_step (filter : Decl → What) (st : St) (d : Decl)
    (flags : Flags) (h1 : isRecordTag d = false)
    (h2 : isFunctionDecl d = false) (h3 : isMemberFn d = false) :
    Step st (VisitTypedefNameDecl filter st d flags) := by
  obtain ⟨hd, hc⟩ := New_of_inert d h1 h2 h3
  exact Step.of_go filter d flags true (fun _ => hd) hc

/-- `VisitEnumConstantDecl` is a step, for a declaration of inert kind. -/
theorem VisitEnumConstantDecl_step (filter : Decl → What) (st : St)
    (d : Decl) (flags : Flags) (h1 : isRecordTag d = false)
    (h2 : isFunctionDecl d = false) (h3 : isMemberFn d = false) :
    Step st (VisitEnumConstantDecl filter st d flags) := by
  obtain ⟨hd, hc⟩ := New_of_inert d h1 h2 h3
  exact Step.of_go filter d flags true (fun _ => hd) hc

/-- `VisitStaticAssertDecl` is a step: it only appends to the assertion
list. -/
theorem VisitStaticAssertDecl_step (st : St) (d : Decl) :
    Step st (VisitStaticAssertDecl st d) := by
  unfold VisitStaticAssertDecl Module.add_assert
  exact ⟨fun x hx => hx, fun x hx => Or.inl hx, fun x hx => Or.inl hx,
    fun x hx => Or.inl hx, fun x hx => Or.inl hx⟩

mutual

/-- The guarded `Visit` is a step. -/
theorem Visit_step (tv : Bool) (filter : Decl → What) (st : St) (d : Decl)
    (flags : Flags) : Step st (Visit tv filter st d flags) := by
  rw [Visit]
  split
  · exact Step.rfl
  · refine Step.trans (t := { st with visited_ := d.getID :: st.visited_ }) ?_ ?_
    · exact ⟨fun x hx => List.mem_cons_of_mem _ hx, fun x hx => Or.inl hx,
        fun x hx => Or.inl hx, fun x hx => Or.inl hx, fun x hx => Or.inl hx⟩
    · exact visitKind_step tv filter _ d flags

/-- The kind dispatch is a step. -/
theorem visitKind_step (tv : Bool) (filter : Decl → What) (st : St)
    (d : Decl) (flags : Flags) : Step st (visitKind tv filter st d flags) := by
  cases d with
  | translationUnit id ds =>
      rw [visitKind]
      exact visitList_step tv filter st ds flags
  | namespaceD id ds =>
      rw [visitKind]
      exact visitList_step tv filter st ds flags
  | linkageSpec id ds =>
      rw [visitKind]
      exact visitList_step tv filter st ds flags
  | typedefName id =>
      rw [visitKind]
      exact VisitTypedefNameDecl_step filter st _ flags rfl rfl rfl
  | tag id defn prev =>
      rw [visitKind]
      exact VisitTagDecl_step filter st _ flags (by simp [isMemberFn])
  | cxxRecord id implicit isSpec defn prev ds =>
      rw [visitKind]
      split
      · exact Step.rfl
      · split
        · exact Step.rfl
        · exact Step.trans (visitList_step tv filter st ds flags)
            (VisitTagDecl_step filter _ _ flags (by simp [isMemberFn]))
  | enumD id canonical es =>
      rw [visitKind]
      exact VisitEnumDecl_step filter st _ flags rfl rfl rfl
  | enumConstant id =>
      rw [visitKind]
      exact VisitEnumConstantDecl_step filter st _ flags rfl rfl rfl
  | function id k deleted dependent defn prev hasComment ds =>
      cases k with
      | plain =>
          rw [visitKind]
          exact VisitFunctionDecl_step tv filter st _ flags
            (by simp [isMemberFn])
      | method =>
          rw [visitKind]
          exact VisitCXXMethodDecl_step tv filter st _ flags
      | ctor =>
          rw [visitKind]
          exact VisitCXXConstructorDecl_step tv filter st _ flags
      | dtor =>
          rw [visitKind]
          exact VisitCXXDestructorDecl_step tv filter st _ flags
  | var id templated staticLocal defn =>
      rw [visitKind]
      exact VisitVarDecl_step tv filter st _ flags rfl
  | fieldD id => rw [visitKind]; exact Step.rfl
  | indirectField id => rw [visitKind]; exact Step.rfl
  | usingD id => rw [visitKind]; exact Step.rfl
  | usingDirective id => rw [visitKind]; exact Step.rfl
  | usingShadow id => rw [visitKind]; exact Step.rfl
  | accessSpec id => rw [visitKind]; exact Step.rfl
  | emptyD id => rw [visitKind]; exact Step.rfl
  | staticAssert id =>
      rw [visitKind]
      exact VisitStaticAssertDecl_step st _
  | builtinTemplate id => rw [visitKind]; exact Step.rfl
  | classTemplate id td specls =>
      rw [visitKind]
      refine Step.trans (t := if tv then
        Visit tv filter st td flags.set_template else st) ?_ ?_
      · split
        · exact Visit_step tv filter st td flags.set_template
        · exact Step.rfl
      · exact visitList_step tv filter _ specls flags.set_specialization
  | functionTemplate id specls =>
      rw [visitKind]
      refine Step.trans (t := if tv then
        { st with module_ :=
          (go filter st.module_ (Decl.functionTemplate id specls)
            flags.set_template true).1 } else st) ?_ ?_
      · split
        · obtain ⟨hd, hc⟩ := New_of_inert (Decl.functionTemplate id specls)
            (by simp [isRecordTag]) (by simp [isFunctionDecl])
            (by simp [isMemberFn])
          exact Step.of_go filter _ flags.set_template true (fun _ => hd) hc
        · exact Step.rfl
      · exact visitList_step tv filter _ specls flags.set_specialization
  | varTemplate id specls =>
      rw [visitKind]
      refine Step.trans (t := if tv then
        { st with module_ :=
          (go filter st.module_ (Decl.varTemplate id specls)
            flags.set_template true).1 } else st) ?_ ?_
      · split
        · obtain ⟨hd, hc⟩ := New_of_inert (Decl.varTemplate id specls)
            (by simp [isRecordTag]) (by simp [isFunctionDecl])
            (by simp [isMemberFn])
          exact Step.of_go filter _ flags.set_template true (fun _ => hd) hc
        · exact Step.rfl
      · exact visitList_step tv filter _ specls flags.set_specialization
  | typeAliasTemplate id => rw [visitKind]; exact Step.rfl
  | friendD id target =>
      cases target with
      | some t =>
          rw [visitKind]
          exact Visit_step tv filter st t flags
      | none => rw [visitKind]; exact Step.rfl
  | typeDeclOther id => rw [visitKind]; exact Step.rfl
  | otherDecl id => rw [visitKind]; exact Step.rfl

/-- The child/specialization loop is a step. -/
theorem visitList_step (tv : Bool) (filter : Decl → What) (st : St)
    (ds : List Decl) (flags : Flags) :
    Step st (visitList tv filter st ds flags) := by
  cases ds with
  | nil => rw [visitList]; exact Step.rfl
  | cons d ds =>
      rw [visitList]
      exact Step.trans (Visit_step tv filter st d flags)
        (visitList_step tv filter _ ds flags)

end

/-- After `Visit` on a declaration, its identity is recorded in the
visited set. -/
theorem Visit_records (tv : Bool) (filter : Decl → What) (st : St) (d : Decl)
    (flags : Flags) : d.getID ∈ (Visit tv filter st d flags).visited_ := by
  rw [Visit]
  split
  · assumption
  · exact (visitKind_step tv filter _ d flags).vis _ (List.mem_cons_self _ _)

/-
Claim theorems.
-/

/-- C1: for every named declaration passed to the classification core `go`:
if the Filter verdict is `DEFINITION` and the call is at a defining
occurrence, the declaration is inserted into the definition list and
outcome `DEFINITION` is reported; if the verdict is `DEFINITION` at a
non-defining occurrence, it is demoted — inserted into the declaration
list with outcome `DECLARATION`; verdict `DECLARATION` inserts into the
declaration list with outcome `DECLARATION`; verdict `NOTHING` inserts
nothing and reports `NOTHING`. -/
theorem go_classification_cases (filter : Decl → What) (m : Module)
    (decl : Decl) (flags : Flags) (definition : Bool) :
    (filter decl = What.DEFINITION → definition = true →
       go filter m decl flags definition =
         (m.add_definition decl flags, What.DEFINITION))
  ∧ (filter decl = What.DEFINITION → definition = false →
       go filter m decl flags definition =
         (m.add_declaration decl flags, What.DECLARATION))
  ∧ (filter decl = What.DECLARATION →
       go filter m decl flags definition =
         (m.add_declaration decl flags, What.DECLARATION))
  ∧ (filter decl = What.NOTHING →
       go filter m decl flags definition = (m, What.NOTHING)) := by
  refine ⟨fun h hb => ?_, fun h hb => ?_, fun h => ?_, fun h => ?_⟩ <;>
    first
      | (subst hb; simp [go, h])
      | simp [go, h]

/-- Witness for C1 at a concrete input: verdict `DEFINITION` at a defining
occurrence. -/
theorem go_classification_cases_witness :
    go (fun _ => What.DEFINITION) Module.empty (Decl.otherDecl 0) Flags.empty
      true =
      (Module.empty.add_definition (Decl.otherDecl 0) Flags.empty,
        What.DEFINITION) :=
  (go_classification_cases (fun _ => What.DEFINITION) Module.empty
    (Decl.otherDecl 0) Flags.empty true).1 rfl rfl

/-- C2: the `add_decl` bucket rule: when `flags.in_template` is set, the
declaration is appended only to the template partition list; otherwise it
is appended to the main partition list, and additionally appended to the
template partition list when `flags.in_specialization` is set. -/
theorem add_decl_bucket_rule (decls tdecls : List Decl) (d : Decl)
    (flags : Flags) :
    (flags.in_template = true →
       add_decl decls tdecls d flags = (decls, tdecls ++ [d]))
  ∧ (flags.in_template = false → flags.in_specialization = true →
       add_decl decls tdecls d flags = (decls ++ [d], tdecls ++ [d]))
  ∧ (flags.in_template = false → flags.in_specialization = false →
       add_decl decls tdecls d flags = (decls ++ [d], tdecls)) := by
  refine ⟨fun h => ?_, fun h hs => ?_, fun h hs => ?_⟩ <;>
    simp [add_decl, h] <;> simp [hs]

/-- Witness for C2 at a concrete input: a specialization reached outside an
explicit template context is appended to both partitions. -/
theorem add_decl_bucket_rule_witness :
    add_decl [] [] (Decl.otherDecl 0)
      { in_template := false, in_specialization := true } =
      ([] ++ [Decl.otherDecl 0], [] ++ [Decl.otherDecl 0]) :=
  (add_decl_bucket_rule [] [] (Decl.otherDecl 0)
    { in_template := false, in_specialization := true }).2.1 rfl rfl

/-- C4: the visited-set cycle guard: a `Visit` of an identity already in
the visited set returns immediately, state unchanged, before any dispatch;
consequently a second visit of the same declaration identity — through any
second graph edge — changes nothing, so the two visits insert into the
Module at most what the first visit inserted. -/
theorem visited_guard_idempotent :
    (∀ (tv : Bool) (filter : Decl → What) (st : St) (d : Decl)
       (flags : Flags), d.getID ∈ st.visited_ →
         Visit tv filter st d flags = st)
  ∧ (∀ (tv : Bool) (filter : Decl → What) (st : St) (d d' : Decl)
       (flags flags' : Flags), d'.getID = d.getID →
         Visit tv filter (Visit tv filter st d flags) d' flags' =
           Visit tv filter st d flags) := by
  have guard : ∀ (tv : Bool) (filter : Decl → What) (st : St) (d : Decl)
      (flags : Flags), d.getID ∈ st.visited_ →
        Visit tv filter st d flags = st := by
    intro tv filter st d flags h
    rw [Visit]
    simp [h]
  refine ⟨guard, ?_⟩
  intro tv filter st d d' flags flags' hid
  exact guard _ _ _ _ _ (hid ▸ Visit_records tv filter st d flags)

/-- Witness for C4 at a concrete input: identity 7 is already visited, so
the visit returns the state unchanged. -/
theorem visited_guard_idempotent_witness :
    Visit false (fun _ => What.DEFINITION)
      { visited_ := [7], module_ := Module.empty, specs_ := [] }
      (Decl.otherDecl 7) Flags.empty =
      { visited_ := [7], module_ := Module.empty, specs_ := [] } :=
  visited_guard_idempotent.1 false (fun _ => What.DEFINITION)
    { visited_ := [7], module_ := Module.empty, specs_ := [] }
    (Decl.otherDecl 7) Flags.empty (by simp [Decl.getID])

/-- C3 counterexample: a variable declaration with a definition reachable
from the root (node 2 is its own definition) has its non-defining
occurrence (node 1, whose `getDefinition` points to node 2) emitted as a
Definition: `VisitVarDecl` never checks for the defining occurrence, so the
claim fails for variable declarations. -/
theorem var_nondefining_emitted_as_definition :
    (Decl.var 1 false false (some 2)).getDefinition ≠
      some (Decl.var 1 false false (some 2)).getID
  ∧ (Decl.var 2 false false (some 2)).getDefinition =
      some (Decl.var 2 false false (some 2)).getID
  ∧ (Decl.var 1 false false (some 2)) ∈ (build_module true
      (fun _ => What.DEFINITION) (Decl.translationUnit 0
        [Decl.var 1 false false (some 2),
         Decl.var 2 false false (some 2)])).module_.definitions_ := by
  refine ⟨by simp [Decl.getDefinition, Decl.getID], rfl, ?_⟩
  simp [build_module, visitList, Visit, visitKind, VisitVarDecl, go, St.empty,
    Module.empty, Module.add_definition, add_decl, Decl.declsOf, Decl.getID,
    Decl.isTemplated, Flags.empty]

/-- C3 (amended): for every record-like tag or function declaration, an
occurrence lands in a definition list only if it is the canonical defining
occurrence, and in a declaration list only if it is the defining occurrence
(demoted or with verdict Declaration) or the first-seen occurrence with no
definition anywhere and no previous declaration.  Variable declarations
(and enum declarations at their canonical occurrence) are instead
classified as if defining at every visited occurrence. -/
theorem definitions_only_at_defining_occurrences (tv : Bool)
    (filter : Decl → What) (tu : Decl) :
    (∀ x, (x ∈ (build_module tv filter tu).module_.definitions_ ∨
           x ∈ (build_module tv filter tu).module_.template_definitions_) →
       (isRecordTag x || isFunctionDecl x) = true →
       x.getDefinition = some x.getID)
  ∧ (∀ x, (x ∈ (build_module tv filter tu).module_.declarations_ ∨
           x ∈ (build_module tv filter tu).module_.template_declarations_) →
       (isRecordTag x || isFunctionDecl x) = true →
       x.getDefinition = some x.getID ∨
         (x.getDefinition = none ∧ x.getPreviousDecl = none)) := by
  have hstep := visitList_step tv filter St.empty tu.declsOf Flags.empty
  unfold build_module
  constructor
  · intro x hx hk
    rcases hx with hx | hx
    · rcases hstep.defs x hx with h | h
      · simp [St.empty, Module.empty] at h
      · exact h.1 hk
    · rcases hstep.tdefs x hx with h | h
      · simp [St.empty, Module.empty] at h
      · exact h.1 hk
  · intro x hx hk
    rcases hx with hx | hx
    · rcases hstep.decls x hx with h | h
      · simp [St.empty, Module.empty] at h
      · exact h.1 hk
    · rcases hstep.tdecls x hx with h | h
      · simp [St.empty, Module.empty] at h
      · exact h.1 hk

/-- Witness for the amended C3 at a concrete input: a tag emitted as a
definition is its own canonical defining occurrence. -/
theorem definitions_only_at_defining_occurrences_witness :
    (Decl.tag 1 (some 1) none).getDefinition =
      some (Decl.tag 1 (some 1) none).getID :=
  (definitions_only_at_defining_occurrences false (fun _ => What.DEFINITION)
    (Decl.translationUnit 0 [Decl.tag 1 (some 1) none])).1
    (Decl.tag 1 (some 1) none)
    (Or.inl (by
      simp [build_module, visitList, Visit, visitKind, VisitTagDecl, go,
        St.empty, Module.empty, Module.add_definition, add_decl, Decl.declsOf,
        Decl.getID, Decl.getDefinition, Flags.empty]))
    (by simp [isRecordTag])

/-- C5 counterexample: a deleted non-member function that is its own
definition is inserted into the definitions list — `VisitFunctionDecl` has
no `isDeleted` check (only the method/constructor/destructor visitors do),
so the claim fails for deleted non-member functions. -/
theorem deleted_free_function_emitted :
    (Decl.function 1 FnKind.plain true false (some 1) none false
      []).isDeleted = true
  ∧ (Decl.function 1 FnKind.plain true false (some 1) none false []) ∈
      (build_module false (fun _ => What.DEFINITION)
        (Decl.translationUnit 0
          [Decl.function 1 FnKind.plain true false (some 1) none false
            []])).module_.definitions_ := by
  refine ⟨rfl, ?_⟩
  simp [build_module, visitList, Visit, visitKind, VisitFunctionDecl, go,
    St.empty, Module.empty, Module.add_definition, add_decl, Decl.declsOf,
    Decl.getID, Decl.getDefinition, Decl.isDependentContext,
    Decl.hasRawComment, What.toNat, staticLocalStep, Flags.empty]

/-- C5 (amended): a deleted member function — constructor, destructor or
method — is never present in any of the module's output lists; deleted
non-member functions are not covered by this guard. -/
theorem no_deleted_member_in_output (tv : Bool) (filter : Decl → What)
    (tu : Decl) :
    ∀ x, (x ∈ (build_module tv filter tu).module_.definitions_ ∨
          x ∈ (build_module tv filter tu).module_.declarations_ ∨
          x ∈ (build_module tv filter tu).module_.template_definitions_ ∨
          x ∈ (build_module tv filter tu).module_.template_declarations_) →
      isMemberFn x = true → x.isDeleted = false := by
  have hstep := visitList_step tv filter St.empty tu.declsOf Flags.empty
  unfold build_module
  intro x hx hk
  rcases hx with hx | hx | hx | hx
  · rcases hstep.defs x hx with h | h
    · simp [St.empty, Module.empty] at h
    · exact h.2 hk
  · rcases hstep.decls x hx with h | h
    · simp [St.empty, Module.empty] at h
    · exact h.2 hk
  · rcases hstep.tdefs x hx with h | h
    · simp [St.empty, Module.empty] at h
    · exact h.2 hk
  · rcases hstep.tdecls x hx with h | h
    · simp [St.empty, Module.empty] at h
    · exact h.2 hk

/-- Witness for the amended C5 at a concrete input: a non-deleted method
emitted as a definition is indeed not deleted. -/
theorem no_deleted_member_in_output_witness :
    (Decl.function 1 FnKind.method false false (some 1) none false
      []).isDeleted = false :=
  no_deleted_member_in_output false (fun _ => What.DEFINITION)
    (Decl.translationUnit 0
      [Decl.function 1 FnKind.method false false (some 1) none false []])
    (Decl.function 1 FnKind.method false false (some 1) none false [])
    (Or.inl (by
      simp [build_module, visitList, Visit, visitKind, VisitCXXMethodDecl,
        VisitFunctionDecl, go, St.empty, Module.empty, Module.add_definition,
        add_decl, Decl.declsOf, Decl.getID, Decl.getDefinition,
        Decl.isDeleted, Decl.isDependentContext, Decl.hasRawComment,
        What.toNat, staticLocalStep, Flags.empty]))
    (by simp [isMemberFn])

/-- C6: evaluation of the code at the failing input.  With template
emission disabled, `VisitVarDecl`'s guard `!templates_ &&
!decl->isTemplated()` keeps the templated (dependent-context) variable
(node 1) — it is inserted into the declarations list — while the ordinary
non-templated variable (node 2) is dropped.  The claim requires the exact
opposite for variables. -/
theorem template_gating_variable_inversion :
    (build_module false (fun _ => What.DECLARATION)
      (Decl.translationUnit 0 [Decl.var 1 true false none,
        Decl.var 2 false false none])).module_.declarations_ =
      [Decl.var 1 true false none] := by
  simp [build_module, visitList, Visit, visitKind, VisitVarDecl, go, St.empty,
    Module.empty, Module.add_declaration, add_decl, Decl.declsOf, Decl.getID,
    Decl.isTemplated, Flags.empty]

/-- Module-list membership is preserved by the static-local fold of
`VisitFunctionDecl`. -/
theorem staticLocal_foldl_mono (filter : Decl → What) (flags : Flags)
    (x : Decl) : ∀ (ds : List Decl) (st : St),
    (x ∈ st.module_.definitions_ →
       x ∈ (List.foldl (staticLocalStep filter flags) st
         ds).module_.definitions_)
  ∧ (x ∈ st.module_.template_definitions_ →
       x ∈ (List.foldl (staticLocalStep filter flags) st
         ds).module_.template_definitions_)
  ∧ (x ∈ st.module_.declarations_ →
       x ∈ (List.foldl (staticLocalStep filter flags) st
         ds).module_.declarations_)
  ∧ (x ∈ st.module_.template_declarations_ →
       x ∈ (List.foldl (staticLocalStep filter flags) st
         ds).module_.template_declarations_) := by
  intro ds
  induction ds with
  | nil => exact fun st => ⟨id, id, id, id⟩
  | cons d ds ih =>
      intro st
      obtain ⟨m1, m2, m3, m4⟩ := ih (staticLocalStep filter flags st d)
      have hstep : (x ∈ st.module_.definitions_ →
            x ∈ (staticLocalStep filter flags st d).module_.definitions_)
          ∧ (x ∈ st.module_.template_definitions_ →
            x ∈ (staticLocalStep filter flags st
              d).module_.template_definitions_)
          ∧ (x ∈ st.module_.declarations_ →
            x ∈ (staticLocalStep filter flags st d).module_.declarations_)
          ∧ (x ∈ st.module_.template_declarations_ →
            x ∈ (staticLocalStep filter flags st
              d).module_.template_declarations_) := by
        unfold staticLocalStep
        split
        · obtain ⟨g1, g2, g3, g4⟩ := go_mono filter st.module_ d flags true
          exact ⟨g1 x, g2 x, g3 x, g4 x⟩
        · exact ⟨id, id, id, id⟩
      exact ⟨fun h => m1 (hstep.1 h), fun h => m2 (hstep.2.1 h),
        fun h => m3 (hstep.2.2.1 h), fun h => m4 (hstep.2.2.2 h)⟩

/-- A static-local variable in the scanned list ends up in the partition
selected by the Filter's verdict after the fold. -/
theorem staticLocal_foldl_mem (filter : Decl → What) (flags : Flags)
    (s : Decl) (hv : s.isVarDecl = true) (hsl : s.isStaticLocal = true) :
    ∀ (ds : List Decl) (st : St), s ∈ ds →
    (filter s = What.DEFINITION →
       s ∈ (List.foldl (staticLocalStep filter flags) st
         ds).module_.definitions_ ∨
       s ∈ (List.foldl (staticLocalStep filter flags) st
         ds).module_.template_definitions_)
  ∧ (filter s = What.DECLARATION →
       s ∈ (List.foldl (staticLocalStep filter flags) st
         ds).module_.declarations_ ∨
       s ∈ (List.foldl (staticLocalStep filter flags) st
         ds).module_.template_declarations_) := by
  intro ds
  induction ds with
  | nil => intro st h; exact absurd h (List.not_mem_nil s)
  | cons d ds ih =>
      intro st hmem
      rcases List.mem_cons.mp hmem with heq | hmem
      · subst heq
        obtain ⟨m1, m2, m3, m4⟩ :=
          staticLocal_foldl_mono filter flags s ds
            (staticLocalStep filter flags st s)
        have hins : ∀ b : Bool,
            (filter s = What.DEFINITION → b = true →
              s ∈ (go filter st.module_ s flags b).1.definitions_ ∨
              s ∈ (go filter st.module_ s flags b).1.template_definitions_)
          ∧ (filter s = What.DECLARATION →
              s ∈ (go filter st.module_ s flags b).1.declarations_ ∨
              s ∈ (go filter st.module_ s flags b).1.template_declarations_) :=
          fun b => ⟨fun hf hb => hb ▸ go_self_mem_def filter st.module_ s
              flags hf,
            fun hf => go_self_mem_decl filter st.module_ s flags b hf⟩
        have hstep : staticLocalStep filter flags st s =
            { st with module_ := (go filter st.module_ s flags true).1 } := by
          unfold staticLocalStep
          simp [hv, hsl]
        constructor
        · intro hf
          rcases (hins true).1 hf rfl with h | h
          · exact Or.inl (m1 (by rw [hstep]; exact h))
          · exact Or.inr (m2 (by rw [hstep]; exact h))
        · intro hf
          rcases (hins true).2 hf with h | h
          · exact Or.inl (m3 (by rw [hstep]; exact h))
          · exact Or.inr (m4 (by rw [hstep]; exact h))
      · exact ih (staticLocalStep filter flags st d) hmem

/-- C7 counterexample: with a Filter that answers `DEFINITION` for the
static-local variable (node 2) found in the body of the accepted function
definition (node 1), the static local is inserted into the definitions
list, and the declarations list stays empty — so the claim's "inserted
into the declaration lists, not the definition lists" fails. -/
theorem static_local_in_definition_list :
    (Decl.var 2 false true none) ∈ (build_module false
      (fun _ => What.DEFINITION) (Decl.translationUnit 0
        [Decl.function 1 FnKind.plain false false (some 1) none false
          [Decl.var 2 false true none]])).module_.definitions_
  ∧ (build_module false (fun _ => What.DEFINITION) (Decl.translationUnit 0
      [Decl.function 1 FnKind.plain false false (some 1) none false
        [Decl.var 2 false true none]])).module_.declarations_ = [] := by
  constructor <;>
    simp [build_module, visitList, Visit, visitKind, VisitFunctionDecl, go,
      St.empty, Module.empty, Module.add_definition, add_decl, Decl.declsOf,
      Decl.getID, Decl.getDefinition, Decl.isDependentContext,
      Decl.hasRawComment, What.toNat, staticLocalStep, Decl.isVarDecl,
      Decl.isStaticLocal, Flags.empty]

/-- C7 (amended): for every function whose defining occurrence is accepted
by the Filter as a true Definition, the body is scanned for static-local
variables, and each static-local variable found is submitted to the
ordinary classification core at a defining occurrence: it is inserted into
a definition list when the Filter's verdict for it is Definition, and into
a declaration list when the verdict is Declaration. -/
theorem static_locals_classified_by_verdict (tv : Bool)
    (filter : Decl → What) (st : St) (d : Decl) (flags : Flags) (s : Decl)
    (hguard : (!tv && d.isDependentContext) = false)
    (hdefn : d.getDefinition = some d.getID)
    (hacc : filter d = What.DEFINITION)
    (hs : s ∈ d.declsOf) (hv : s.isVarDecl = true)
    (hsl : s.isStaticLocal = true) :
    (filter s = What.DEFINITION →
       s ∈ (VisitFunctionDecl tv filter st d flags).module_.definitions_ ∨
       s ∈ (VisitFunctionDecl tv filter st d
         flags).module_.template_definitions_)
  ∧ (filter s = What.DECLARATION →
       s ∈ (VisitFunctionDecl tv filter st d flags).module_.declarations_ ∨
       s ∈ (VisitFunctionDecl tv filter st d
         flags).module_.template_declarations_) := by
  unfold VisitFunctionDecl
  rw [hguard, hdefn]
  simp only [Bool.false_eq_true, if_false, if_pos rfl, go, hacc, if_true,
    What.toNat, Nat.le_refl]
  exact staticLocal_foldl_mem filter flags s hv hsl d.declsOf _ hs

/-- Witness for the amended C7 at a concrete input. -/
theorem static_locals_classified_by_verdict_witness :
    (Decl.var 2 false true none) ∈ (VisitFunctionDecl false
      (fun _ => What.DEFINITION) St.empty
      (Decl.function 1 FnKind.plain false false (some 1) none false
        [Decl.var 2 false true none])
      Flags.empty).module_.definitions_ ∨
    (Decl.var 2 false true none) ∈ (VisitFunctionDecl false
      (fun _ => What.DEFINITION) St.empty
      (Decl.function 1 FnKind.plain false false (some 1) none false
        [Decl.var 2 false true none])
      Flags.empty).module_.template_definitions_ :=
  (static_locals_classified_by_verdict false (fun _ => What.DEFINITION)
    St.empty
    (Decl.function 1 FnKind.plain false false (some 1) none false
      [Decl.var 2 false true none])
    Flags.empty (Decl.var 2 false true none) rfl rfl rfl
    (by simp [Decl.declsOf]) rfl rfl).1 rfl

/-- The static-local fold never touches the collected specifications. -/
theorem staticLocal_foldl_specs (filter : Decl → What) (flags : Flags) :
    ∀ (ds : List Decl) (st : St),
      (List.foldl (staticLocalStep filter flags) st ds).specs_ = st.specs_ := by
  intro ds
  induction ds with
  | nil => exact fun st => rfl
  | cons d ds ih =>
      intro st
      rw [List.foldl_cons, ih (staticLocalStep filter flags st d)]
      unfold staticLocalStep
      split <;> rfl

/-- C10: for every function visited at its canonical defining occurrence
(and, when template emission is disabled, not in a dependent context), if a
raw comment is attached then the `SpecCollector` receives the specification
before the Filter is consulted and regardless of the Filter's verdict: the
collected-specifications list gains the function's identity for every
`filter`, including one whose verdict is `NOTHING`. -/
theorem specification_collected_regardless_of_verdict (tv : Bool)
    (filter : Decl → What) (st : St) (d : Decl) (flags : Flags)
    (hguard : (!tv && d.isDependentContext) = false)
    (hdefn : d.getDefinition = some d.getID)
    (hcom : d.hasRawComment = true) :
    (VisitFunctionDecl tv filter st d flags).specs_ =
      st.specs_ ++ [d.getID] := by
  unfold VisitFunctionDecl
  rw [hguard, hdefn]
  simp only [Bool.false_eq_true, if_false, if_pos rfl, hcom, if_true]
  split
  · rw [staticLocal_foldl_specs]
  · rfl

/-- Witness for C10 at a concrete input whose Filter verdict is `NOTHING`:
the specification is still collected. -/
theorem specification_collected_regardless_of_verdict_witness :
    (VisitFunctionDecl false (fun _ => What.NOTHING) St.empty
      (Decl.function 5 FnKind.plain false false (some 5) none true [])
      Flags.empty).specs_ =
      St.empty.specs_ ++
        [(Decl.function 5 FnKind.plain false false (some 5) none true
          []).getID] :=
  specification_collected_regardless_of_verdict false (fun _ => What.NOTHING)
    St.empty (Decl.function 5 FnKind.plain false false (some 5) none true [])
    Flags.empty rfl rfl rfl

/-- C8: printing a local variable declaration emits exactly the
3-tuple term — quoted name string, qualified type, explicitly wrapped
optional initializer: with no initializer the third field is the literal
`None`; with initializer expression `e` it is `Some` applied to the printed
expression, in its own parentheses.  This holds for every name (so in
particular for "x"), every type (the type field is exactly the external
type printer's output) and every initializer expression. -/
theorem printLocalDecl_var_tuple (printQualType : QualType → List PTok)
    (printExpr : PExpr → List PTok) (name : String) (t : QualType) :
    (ClangPrinter.printLocalDecl printQualType printExpr
        (LDecl.varD name t none) =
      [PTok.lparen, PTok.str (r#"""#), PTok.str name, PTok.str (r#"","#),
          PTok.nbsp]
        ++ printQualType t
        ++ [PTok.str (r","), PTok.nbsp]
        ++ [PTok.str (r"None")]
        ++ [PTok.rparen])
  ∧ ∀ e, ClangPrinter.printLocalDecl printQualType printExpr
        (LDecl.varD name t (some e)) =
      [PTok.lparen, PTok.str (r#"""#), PTok.str name, PTok.str (r#"","#),
          PTok.nbsp]
        ++ printQualType t
        ++ [PTok.str (r","), PTok.nbsp]
        ++ ([PTok.lparen, PTok.str (r"Some"), PTok.nbsp]
            ++ printExpr e ++ [PTok.rparen])
        ++ [PTok.rparen] := by
  constructor
  · simp [ClangPrinter.printLocalDecl, PrintLocalDecl.VisitVarDecl]
  · intro e
    simp [ClangPrinter.printLocalDecl, PrintLocalDecl.VisitVarDecl,
      CoqPrinter.ctor]

/-- C9: for every declaration of a kind that cannot legally appear as a
local declaration, `printLocalDecl` emits exactly an explicit inline error
marker into the output stream — the print pass stays total and the
malformed spot is visible in the output. -/
theorem printLocalDecl_unexpected_kind (printQualType : QualType → List PTok)
    (printExpr : PExpr → List PTok) (kindTag : Int) :
    ClangPrinter.printLocalDecl printQualType printExpr
      (LDecl.otherD kindTag) =
      [PTok.errmark (r"unexpected local declaration")] :=
  rfl

end Cpp2v
